import Mathlib

/-!
# A verification development for the f-image-go SDK

This file gives a shallow embedding, in Lean 4, of the HTTP transport core of
the `f-image-go` client library (package `fimage`): JSON parsing and writing as
performed by Go's `encoding/json` on the shapes the SDK uses, the error
classifier `parseAPIError` and the status predicates, the request-building and
response-handling halves of `Client.request`, the multipart upload transport
`Client.uploadMultipart`, and the construction phase of the resource-service
methods (`Share.Create`, `Files.Upload`, `Files.Delete`, ...).

Conventions of the embedding:
* Go byte slices and strings are Lean `String`s; upload streams are `List Nat`
  (byte values).  Go `int`/`int64` are Lean `Int`.
* The network is not modelled: a service method's construction phase returns
  `Except String HttpRequest` — `.error` is an immediate local construction
  error (no request is ever built, hence no network call), `.ok req` is the
  request that would be handed to the HTTP client.  The response-handling half
  of the transport takes the received `HttpResponse` as an argument.
* Go's `multipart.NewWriter` generates a random boundary; the embedding takes
  the boundary as an explicit argument.
* Go map iteration (the `fields` map of `uploadMultipart`, `url.Values`) has
  no specified order; maps are embedded as association lists, the list order
  standing for the iteration order.
-/

/-- A JSON value.  Numbers keep their source lexeme (the SDK never inspects a
number inside an error body, so no numeric semantics is needed). -/
inductive Json where
  | null
  | bool (b : Bool)
  | num (lexeme : String)
  | str (s : String)
  | arr (elems : List Json)
  | obj (fields : List (String × Json))
deriving Repr

/-- The `\x7b` character (left brace). -/
def lbraceChar : Char := Char.ofNat 123

/-- The `\x7d` character (right brace). -/
def rbraceChar : Char := Char.ofNat 125

/-- JSON insignificant whitespace, as accepted by Go `encoding/json`. -/
def isJsonWs (c : Char) : Bool :=
  c = ' ' || c = '\t' || c = '\n' || c = '\r'

/-- Drop leading JSON whitespace. -/
def skipWs : List Char → List Char
  | [] => []
  | c :: cs => if isJsonWs c then skipWs cs else c :: cs

/-- Value of a hexadecimal digit. -/
def hexVal (c : Char) : Option Nat :=
  if '0' ≤ c ∧ c ≤ '9' then some (c.toNat - 48)
  else if 'a' ≤ c ∧ c ≤ 'f' then some (c.toNat - 87)
  else if 'A' ≤ c ∧ c ≤ 'F' then some (c.toNat - 55)
  else none

/-- Parse the body of a JSON string literal (the opening quote already
consumed), returning the decoded characters and the rest of the input.
Mirrors Go `encoding/json`: the short escapes, `\uXXXX`, and a rejection of
raw control characters. -/
def parseStrChars : List Char → Option (List Char × List Char)
  | [] => none
  | c :: cs =>
    if c = '"' then some ([], cs)
    else if c = '\\' then
      match cs with
      | [] => none
      | e :: cs2 =>
        if e = '"' ∨ e = '\\' ∨ e = '/' then
          (parseStrChars cs2).map (fun p => (e :: p.1, p.2))
        else if e = 'b' then (parseStrChars cs2).map (fun p => (Char.ofNat 8 :: p.1, p.2))
        else if e = 'f' then (parseStrChars cs2).map (fun p => (Char.ofNat 12 :: p.1, p.2))
        else if e = 'n' then (parseStrChars cs2).map (fun p => ('\n' :: p.1, p.2))
        else if e = 'r' then (parseStrChars cs2).map (fun p => ('\r' :: p.1, p.2))
        else if e = 't' then (parseStrChars cs2).map (fun p => ('\t' :: p.1, p.2))
        else if e = 'u' then
          match cs2 with
          | h1 :: h2 :: h3 :: h4 :: cs3 =>
            match hexVal h1, hexVal h2, hexVal h3, hexVal h4 with
            | some a, some b, some c3, some d =>
              (parseStrChars cs3).map
                (fun p => (Char.ofNat (a * 4096 + b * 256 + c3 * 16 + d) :: p.1, p.2))
            | _, _, _, _ => none
          | _ => none
        else none
    else if c.toNat < 32 then none
    else (parseStrChars cs).map (fun p => (c :: p.1, p.2))

/-- Take the longest prefix of decimal digits. -/
def spanDigits : List Char → (List Char × List Char)
  | [] => ([], [])
  | c :: cs =>
    if c.isDigit then
      let p := spanDigits cs
      (c :: p.1, p.2)
    else ([], c :: cs)

/-- Continue a JSON number after its integer part: optional fraction and
optional exponent, each requiring at least one digit. -/
def afterIntPart (acc : List Char) (cs : List Char) : Option (String × List Char) :=
  let step1 : Option (List Char × List Char) :=
    match cs with
    | '.' :: r =>
      match r with
      | c :: _ =>
        if c.isDigit then
          let p := spanDigits r
          some (acc ++ '.' :: p.1, p.2)
        else none
      | [] => none
    | _ => some (acc, cs)
  match step1 with
  | none => none
  | some (acc2, cs2) =>
    match cs2 with
    | e :: r =>
      if e = 'e' ∨ e = 'E' then
        let sgn : List Char × List Char :=
          match r with
          | s :: rr => if s = '+' ∨ s = '-' then ([s], rr) else ([], r)
          | [] => ([], r)
        match sgn.2 with
        | c :: _ =>
          if c.isDigit then
            let p := spanDigits sgn.2
            some (String.mk (acc2 ++ e :: sgn.1 ++ p.1), p.2)
          else none
        | [] => none
      else some (String.mk acc2, cs2)
    | [] => some (String.mk acc2, cs2)

/-- Parse a JSON number lexeme (JSON grammar: no leading `+`, no leading zero
followed by another digit), returning the lexeme and the rest. -/
def parseNumber (cs : List Char) : Option (String × List Char) :=
  let sp : List Char × List Char :=
    match cs with
    | c :: r => if c = '-' then ([c], r) else ([], cs)
    | [] => ([], cs)
  match sp.2 with
  | [] => none
  | d :: rest =>
    if d = '0' then
      match rest with
      | c :: _ => if c.isDigit then none else afterIntPart (sp.1 ++ [d]) rest
      | [] => afterIntPart (sp.1 ++ [d]) rest
    else if d.isDigit then
      let p := spanDigits (d :: rest)
      afterIntPart (sp.1 ++ p.1) p.2
    else none

mutual

/-- Parse one JSON value (fuel-based recursion). -/
def parseVal : Nat → List Char → Option (Json × List Char)
  | 0, _ => none
  | fuel + 1, cs =>
    match skipWs cs with
    | [] => none
    | c :: rest =>
      if c = 'n' then
        match rest with
        | 'u' :: 'l' :: 'l' :: r => some (.null, r)
        | _ => none
      else if c = 't' then
        match rest with
        | 'r' :: 'u' :: 'e' :: r => some (.bool true, r)
        | _ => none
      else if c = 'f' then
        match rest with
        | 'a' :: 'l' :: 's' :: 'e' :: r => some (.bool false, r)
        | _ => none
      else if c = '"' then
        (parseStrChars rest).map (fun p => (.str (String.mk p.1), p.2))
      else if c = '[' then
        match skipWs rest with
        | c2 :: r2 => if c2 = ']' then some (.arr [], r2) else parseArrElems fuel (c2 :: r2)
        | [] => none
      else if c = lbraceChar then
        match skipWs rest with
        | c2 :: r2 => if c2 = rbraceChar then some (.obj [], r2) else parseObjFields fuel (c2 :: r2)
        | [] => none
      else
        (parseNumber (c :: rest)).map (fun p => (.num p.1, p.2))

/-- Parse the elements of a non-empty JSON array, up to the closing bracket. -/
def parseArrElems : Nat → List Char → Option (Json × List Char)
  | 0, _ => none
  | fuel + 1, cs =>
    match parseVal fuel cs with
    | none => none
    | some (v, r) =>
      match skipWs r with
      | c :: r2 =>
        if c = ',' then
          match parseArrElems fuel r2 with
          | some (.arr vs, r3) => some (.arr (v :: vs), r3)
          | _ => none
        else if c = ']' then some (.arr [v], r2)
        else none
      | [] => none

/-- Parse the fields of a non-empty JSON object, up to the closing brace. -/
def parseObjFields : Nat → List Char → Option (Json × List Char)
  | 0, _ => none
  | fuel + 1, cs =>
    match cs with
    | c :: r =>
      if c = '"' then
        match parseStrChars r with
        | none => none
        | some (kcs, r2) =>
          match skipWs r2 with
          | ':' :: r3 =>
            match parseVal fuel r3 with
            | none => none
            | some (v, r4) =>
              match skipWs r4 with
              | c2 :: r5 =>
                if c2 = ',' then
                  match parseObjFields fuel (skipWs r5) with
                  | some (.obj fs, r6) => some (.obj ((String.mk kcs, v) :: fs), r6)
                  | _ => none
                else if c2 = rbraceChar then some (.obj [(String.mk kcs, v)], r5)
                else none
              | [] => none
          | _ => none
      else none
    | [] => none

end

/-- Parse a whole input as one JSON value, requiring only whitespace after it,
as Go `json.Unmarshal` does. -/
def jsonParse (s : String) : Option Json :=
  match parseVal (2 * s.length + 8) s.data with
  | some (v, r) => if (skipWs r).isEmpty then some v else none
  | none => none

/-- Lowercase hexadecimal digit. -/
def hexDigitChar (n : Nat) : Char :=
  ("0123456789abcdef".data.getD n '0')

/-- Escape one character the way Go `encoding/json.Marshal` writes strings:
quote, backslash, the common control escapes, `\u00XX` for other control
characters, and the HTML-safe escapes for `<`, `>`, `&`. -/
def escapeJsonChar (c : Char) : String :=
  if c = '"' then "\\\""
  else if c = '\\' then "\\\\"
  else if c = '\n' then "\\n"
  else if c = '\r' then "\\r"
  else if c = '\t' then "\\t"
  else if c.toNat < 32 then
    String.mk ['\\', 'u', '0', '0', hexDigitChar (c.toNat / 16), hexDigitChar (c.toNat % 16)]
  else if c = '<' then "\\u003c"
  else if c = '>' then "\\u003e"
  else if c = '&' then "\\u0026"
  else String.singleton c

/-- Escape a whole string for JSON output. -/
def escapeJsonString (s : String) : String :=
  String.join (s.data.map escapeJsonChar)

mutual

/-- Write a JSON value, as Go `json.Marshal` does on the SDK's request
bodies (object fields are emitted in the order given, which for the SDK is
the struct-field order). -/
def jsonSerialize : Json → String
  | .null => "null"
  | .bool true => "true"
  | .bool false => "false"
  | .num lx => lx
  | .str s => "\"" ++ escapeJsonString s ++ "\""
  | .arr xs => "[" ++ serializeArr xs ++ "]"
  | .obj fs => "\x7b" ++ serializeObj fs ++ "\x7d"

/-- Comma-separated array elements. -/
def serializeArr : List Json → String
  | [] => ""
  | [x] => jsonSerialize x
  | x :: xs => jsonSerialize x ++ "," ++ serializeArr xs

/-- Comma-separated object fields. -/
def serializeObj : List (String × Json) → String
  | [] => ""
  | [kv] => "\"" ++ escapeJsonString kv.1 ++ "\":" ++ jsonSerialize kv.2
  | kv :: fs => "\"" ++ escapeJsonString kv.1 ++ "\":" ++ jsonSerialize kv.2 ++ "," ++ serializeObj fs

end

/-- A Go `int64` rendered as a JSON number (`strconv`-style decimal). -/
def intJson (i : Int) : Json := .num (toString i)

/-- Go `net/http.StatusText` restricted to the codes the service and the
predicates exercise; unknown codes give `""` exactly as the Go table does. -/
def statusText (code : Int) : String :=
  if code = 100 then "Continue"
  else if code = 200 then "OK"
  else if code = 201 then "Created"
  else if code = 202 then "Accepted"
  else if code = 204 then "No Content"
  else if code = 301 then "Moved Permanently"
  else if code = 302 then "Found"
  else if code = 304 then "Not Modified"
  else if code = 400 then "Bad Request"
  else if code = 401 then "Unauthorized"
  else if code = 402 then "Payment Required"
  else if code = 403 then "Forbidden"
  else if code = 404 then "Not Found"
  else if code = 405 then "Method Not Allowed"
  else if code = 408 then "Request Timeout"
  else if code = 409 then "Conflict"
  else if code = 410 then "Gone"
  else if code = 413 then "Request Entity Too Large"
  else if code = 415 then "Unsupported Media Type"
  else if code = 422 then "Unprocessable Entity"
  else if code = 429 then "Too Many Requests"
  else if code = 500 then "Internal Server Error"
  else if code = 501 then "Not Implemented"
  else if code = 502 then "Bad Gateway"
  else if code = 503 then "Service Unavailable"
  else if code = 504 then "Gateway Timeout"
  else ""

/-- `APIError` of `errors.go`: an error returned by the F-Image API. -/
structure APIError where
  StatusCode : Int
  Message : String
deriving Repr, DecidableEq

/-- The error values a call can surface, mirroring `errors.go` and the
`fmt.Errorf` sites of the transport: a classified `*APIError`, one of the
exported sentinel errors, or a plain local error message. -/
inductive SDKError where
  | api (e : APIError)
  | errUnauthorized
  | errNotFound
  | errBadRequest
  | errForbidden
  | errQuotaExceeded
  | errFileTooLarge
  | errInvalidFormat
  | localErr (msg : String)
deriving Repr, DecidableEq

/-- `IsNotFound` of `errors.go`: `errors.As` finds an `*APIError` and checks
`StatusCode == 404`, else `errors.Is(err, ErrNotFound)`. -/
def IsNotFound : SDKError → Bool
  | .api e => e.StatusCode == 404
  | .errNotFound => true
  | _ => false

/-- `IsUnauthorized` of `errors.go`. -/
def IsUnauthorized : SDKError → Bool
  | .api e => e.StatusCode == 401
  | .errUnauthorized => true
  | _ => false

/-- `IsForbidden` of `errors.go`. -/
def IsForbidden : SDKError → Bool
  | .api e => e.StatusCode == 403
  | .errForbidden => true
  | _ => false

/-- `IsBadRequest` of `errors.go`. -/
def IsBadRequest : SDKError → Bool
  | .api e => e.StatusCode == 400
  | .errBadRequest => true
  | _ => false

/-- `IsQuotaExceeded` of `errors.go`: 402 or 413 on an `*APIError`. -/
def IsQuotaExceeded : SDKError → Bool
  | .api e => e.StatusCode == 402 || e.StatusCode == 413
  | .errQuotaExceeded => true
  | _ => false

/-- Go struct-field matching for `json.Unmarshal`: a JSON key is assigned to
the tagged field when it matches the tag exactly or case-insensitively
(ASCII fold, as `encoding/json` does). -/
def keyMatches (key tag : String) : Bool :=
  key == tag || key.toLower == tag

/-- Fold Go `json.Unmarshal` over the fields of a JSON object for the
anonymous `struct { Error string; Message string }` of `parseAPIError`:
keys are assigned in order (later duplicates overwrite), a string value is
assigned, a JSON `null` is a no-op, and any other value type is an
unmarshal error (`none`).  Unknown keys are skipped. -/
def assignErrFields : List (String × Json) → String × String → Option (String × String)
  | [], acc => some acc
  | (k, v) :: rest, acc =>
    if keyMatches k "error" then
      match v with
      | .str s => assignErrFields rest (s, acc.2)
      | .null => assignErrFields rest acc
      | _ => none
    else if keyMatches k "message" then
      match v with
      | .str s => assignErrFields rest (acc.1, s)
      | .null => assignErrFields rest acc
      | _ => none
    else assignErrFields rest acc

/-- `json.Unmarshal(body, &errResp)` for the error-response struct of
`parseAPIError`: succeeds on a JSON object (collecting the two string
fields) and, per Go unmarshal semantics, on a top-level JSON `null`
(leaving both fields at their zero value); any other body is an error. -/
def unmarshalErrResp (body : String) : Option (String × String) :=
  match jsonParse body with
  | some (.obj fields) => assignErrFields fields ("", "")
  | some .null => some ("", "")
  | _ => none

/-- `parseAPIError` of `client.go`: classify a non-2xx response.  If the body
unmarshals into the `error`/`message` struct, pick `error` when non-empty,
else `message` when non-empty, else `http.StatusText`; if the unmarshal
fails, the raw body text is the message.  The status code is carried
through unchanged on both paths. -/
def parseAPIError (statusCode : Int) (body : String) : APIError :=
  match unmarshalErrResp body with
  | none => { StatusCode := statusCode, Message := body }
  | some em =>
    let msg := if em.1 ≠ "" then em.1 else if em.2 ≠ "" then em.2 else statusText statusCode
    { StatusCode := statusCode, Message := msg }

/-- Uppercase hexadecimal digit (as Go percent-encoding writes). -/
def hexDigitUpperChar (n : Nat) : Char :=
  ("0123456789ABCDEF".data.getD n '0')

/-- Characters Go `url.QueryEscape` leaves unescaped in a query component. -/
def isUnescapedQueryChar (c : Char) : Bool :=
  (('a' ≤ c && c ≤ 'z') || ('A' ≤ c && c ≤ 'Z') || ('0' ≤ c && c ≤ '9'))
    || c = '-' || c = '_' || c = '.' || c = '~'

/-- Escape one byte the way Go `url.QueryEscape` does: unreserved bytes kept,
space becomes `+`, everything else percent-encoded in uppercase hex. -/
def queryEscapeByte (b : Nat) : String :=
  let c := Char.ofNat b
  if isUnescapedQueryChar c then String.singleton c
  else if c = ' ' then "+"
  else String.mk ['%', hexDigitUpperChar (b / 16), hexDigitUpperChar (b % 16)]

/-- Go `url.QueryEscape`: escape the UTF-8 bytes of a string. -/
def queryEscape (s : String) : String :=
  String.join (s.toUTF8.toList.map (fun b => queryEscapeByte b.toNat))

/-- Insert one key into a key-sorted association list (ascending keys). -/
def insertByKey (kv : String × List String) :
    List (String × List String) → List (String × List String)
  | [] => [kv]
  | h :: t => if kv.1 ≤ h.1 then kv :: h :: t else h :: insertByKey kv t

/-- Sort a `url.Values` map by key, as `Values.Encode` does (`sort.Strings`). -/
def sortByKey (q : List (String × List String)) : List (String × List String) :=
  q.foldr insertByKey []

/-- Go `url.Values.Encode`: keys in sorted order, each value of a key emitted
as `escape(k)=escape(v)`, all pairs joined with `&`. -/
def encodeValues (q : List (String × List String)) : String :=
  String.intercalate "&"
    (List.flatten ((sortByKey q).map
      (fun kv => kv.2.map (fun v => queryEscape kv.1 ++ "=" ++ queryEscape v))))

/-- `DefaultBaseURL` of `client.go`. -/
def DefaultBaseURL : String := "https://f-image.com"

/-- `Version` of `client.go`. -/
def Version : String := "1.0.0"

/-- The `Client` of `client.go`, restricted to the fields the transport
reads when building a request (the `http.Client` with its timeout carries no
request content and is outside the embedding). -/
structure Client where
  BaseURL : String
  apiToken : String
  userAgent : String
deriving Repr, DecidableEq

/-- `NewClient` of `client.go`, before any options are applied. -/
def NewClient (apiToken : String) : Client :=
  { BaseURL := DefaultBaseURL
    apiToken := apiToken
    userAgent := "f-image-go/" ++ Version }

/-- An outgoing HTTP request as the transport constructs it: method, absolute
URL, headers in the order `Header.Set` is called, and the serialized JSON
body when one is present. -/
structure HttpRequest where
  method : String
  url : String
  headers : List (String × String)
  body : Option String
deriving Repr, DecidableEq

/-- A received HTTP response: status code and the fully read body. -/
structure HttpResponse where
  statusCode : Int
  body : String
deriving Repr, DecidableEq

/-- First header with the given name (the names the transport sets are
pairwise distinct, so this is the header map lookup). -/
def getHeader (headers : List (String × String)) (name : String) : Option String :=
  (headers.find? (fun p => p.1 == name)).map (fun p => p.2)

/-- The request-construction half of `Client.request` in `client.go`:
URL concatenation, then `Authorization`, `User-Agent`, `Content-Type`
(only with a body), `Accept`.  The body arrives already serialized
(`json.Marshal` of the SDK's request structs is total on their shapes). -/
def Client.buildRequest (c : Client) (method path : String) (body : Option String) :
    HttpRequest :=
  { method := method
    url := c.BaseURL ++ path
    headers :=
      [("Authorization", "Bearer " ++ c.apiToken), ("User-Agent", c.userAgent)]
        ++ (match body with
            | some _ => [("Content-Type", "application/json")]
            | none => [])
        ++ [("Accept", "application/json")]
    body := body }

/-- The response half of `Client.request` in `client.go`: non-2xx statuses go
to `parseAPIError`; otherwise, with a non-nil destination and a non-empty
body, the body is JSON-decoded (a failure is the local "failed to decode
response" error), and an empty body decodes nothing (`.ok none`, the
destination keeping its zero value). -/
def handleResponse (resp : HttpResponse) (wantResult : Bool) :
    Except SDKError (Option Json) :=
  if resp.statusCode < 200 ∨ 300 ≤ resp.statusCode then
    .error (.api (parseAPIError resp.statusCode resp.body))
  else if wantResult ∧ resp.body ≠ "" then
    match jsonParse resp.body with
    | some j => .ok (some j)
    | none => .error (.localErr "failed to decode response")
  else .ok none

/-- `Client.request` of `client.go` as a whole: the request it sends and the
outcome it returns for the response the server gave. -/
def Client.request (c : Client) (method path : String) (body : Option String)
    (resp : HttpResponse) (wantResult : Bool) :
    HttpRequest × Except SDKError (Option Json) :=
  (c.buildRequest method path body, handleResponse resp wantResult)

/-- `Client.requestWithQuery` of `client.go`: appends `?` and the encoded
query when the `url.Values` map is non-empty, then delegates to a GET
`Client.request` with no body. -/
def Client.requestWithQuery (c : Client) (path : String)
    (query : List (String × List String)) (resp : HttpResponse) (wantResult : Bool) :
    HttpRequest × Except SDKError (Option Json) :=
  c.request "GET"
    (if 0 < query.length then path ++ "?" ++ encodeValues query else path)
    none resp wantResult

/-- One part of a multipart/form-data body: the file part written by
`CreateFormFile`+`io.Copy`, or a text field written by `WriteField`. -/
inductive FormPart where
  | filePart (fieldName : String) (filename : String) (content : List Nat)
  | textPart (name : String) (value : String)
deriving Repr, DecidableEq

/-- Whether a part is the file part. -/
def FormPart.isFile : FormPart → Bool
  | .filePart _ _ _ => true
  | .textPart _ _ => false

/-- A multipart upload request: method, URL, headers, and the parts of the
body in the order they are written. -/
structure MultipartRequest where
  method : String
  url : String
  headers : List (String × String)
  parts : List FormPart
deriving Repr, DecidableEq

/-- The request-construction half of `Client.uploadMultipart` in `client.go`:
one file part under the fixed field name `"file"` with the caller's
filename and the bytes of the reader copied in order, then one text part
per entry of the fields map, then the four headers (`Authorization`,
`User-Agent`, the boundary-carrying multipart `Content-Type`, `Accept`).
The boundary the writer generated is passed in explicitly. -/
def Client.uploadMultipart (c : Client) (path boundary : String) (reader : List Nat)
    (filename : String) (fields : List (String × String)) : MultipartRequest :=
  { method := "POST"
    url := c.BaseURL ++ path
    headers :=
      [("Authorization", "Bearer " ++ c.apiToken),
       ("User-Agent", c.userAgent),
       ("Content-Type", "multipart/form-data; boundary=" ++ boundary),
       ("Accept", "application/json")]
    parts :=
      FormPart.filePart "file" filename reader
        :: fields.map (fun kv => FormPart.textPart kv.1 kv.2) }

/-- The response half of `Client.uploadMultipart`: same status check and
classification as `handleResponse`, but a 2xx response returns the raw
body bytes uninterpreted. -/
def handleUploadResponse (resp : HttpResponse) : Except SDKError String :=
  if resp.statusCode < 200 ∨ 300 ≤ resp.statusCode then
    .error (.api (parseAPIError resp.statusCode resp.body))
  else .ok resp.body

/-- `CreateShareOptions` of `share.go`. -/
structure CreateShareOptions where
  FileID : Option Int
  AlbumID : Option Int
  Password : String
  ExpiresIn : Int
  MaxViews : Int
deriving Repr, DecidableEq

/-- The anonymous request struct of `ShareService.Create`, with its
`omitempty` behavior: nil pointers, the empty password and zero integers
are omitted, fields in declaration order. -/
def shareCreateBody (o : CreateShareOptions) : Json :=
  .obj ((match o.FileID with | some v => [("file_id", intJson v)] | none => [])
    ++ (match o.AlbumID with | some v => [("album_id", intJson v)] | none => [])
    ++ (if o.Password ≠ "" then [("password", .str o.Password)] else [])
    ++ (if o.ExpiresIn ≠ 0 then [("expires_in", intJson o.ExpiresIn)] else [])
    ++ (if o.MaxViews ≠ 0 then [("max_views", intJson o.MaxViews)] else []))

/-- The construction phase of `ShareService.Create` in `share.go`: nil
options or both targets nil is the immediate local error (nothing is sent);
otherwise the POST to `/api/shares` is built. -/
def ShareService.Create (c : Client) (opts : Option CreateShareOptions) :
    Except String HttpRequest :=
  match opts with
  | none => .error "either FileID or AlbumID is required"
  | some o =>
    if o.FileID.isNone && o.AlbumID.isNone then
      .error "either FileID or AlbumID is required"
    else
      .ok (c.buildRequest "POST" "/api/shares" (some (jsonSerialize (shareCreateBody o))))

/-- `UploadOptions` of `files.go` (the `AlbumID` field is declared and
documented in the source, whether or not `Upload` consumes it). -/
structure UploadOptions where
  Filename : String
  Description : String
  AlbumID : Option Int
deriving Repr, DecidableEq

/-- The zero value `&UploadOptions{}` substituted for nil options. -/
def UploadOptions.zero : UploadOptions :=
  { Filename := "", Description := "", AlbumID := none }

/-- The construction phase of `FilesService.Upload` in `files.go`: nil
options become the zero options, an empty filename becomes `"image.jpg"`,
a non-empty description becomes the `"description"` field of the fields
map, and the call goes to `uploadMultipart` on `/api/files/upload`.
(The source reads no other option here.) -/
def FilesService.Upload (c : Client) (boundary : String) (reader : List Nat)
    (opts : Option UploadOptions) : MultipartRequest :=
  let o := opts.getD UploadOptions.zero
  let filename := if o.Filename = "" then "image.jpg" else o.Filename
  let fields := if o.Description ≠ "" then [("description", o.Description)] else []
  c.uploadMultipart "/api/files/upload" boundary reader filename fields

/-- The construction phase of `FilesService.Delete` in `files.go`: a DELETE
to `/api/files/{id}` with no body and no validation of the id. -/
def FilesService.Delete (c : Client) (fileID : Int) : Except String HttpRequest :=
  .ok (c.buildRequest "DELETE" ("/api/files/" ++ toString fileID) none)

/-- The construction phase of `FilesService.BatchDelete` in `files.go`: a
POST of `{file_ids}` to `/api/files/batch-delete`, with no validation of
the list. -/
def FilesService.BatchDelete (c : Client) (fileIDs : List Int) :
    Except String HttpRequest :=
  .ok (c.buildRequest "POST" "/api/files/batch-delete"
    (some (jsonSerialize (.obj [("file_ids", .arr (fileIDs.map intJson))]))))

/-- The construction phase of `FilesService.Move` in `files.go`: a PUT to
`/api/files/{id}/move`, with `album_id` appended as a query parameter when
the pointer is non-nil; no validation of the id. -/
def FilesService.Move (c : Client) (fileID : Int) (albumID : Option Int) :
    Except String HttpRequest :=
  let path := "/api/files/" ++ toString fileID ++ "/move"
  let query : List (String × List String) :=
    match albumID with
    | some a => [("album_id", [toString a])]
    | none => []
  let path := if 0 < query.length then path ++ "?" ++ encodeValues query else path
  .ok (c.buildRequest "PUT" path none)

/-- The anonymous request struct of `FilesService.MoveMany`: `file_ids`
always present, `album_id` omitted when nil (`omitempty` pointer). -/
def moveManyBody (fileIDs : List Int) (albumID : Option Int) : Json :=
  .obj ([("file_ids", .arr (fileIDs.map intJson))]
    ++ (match albumID with | some a => [("album_id", intJson a)] | none => []))

/-- The construction phase of `FilesService.MoveMany` in `files.go`: a PUT of
`{file_ids, album_id}` to `/api/files/move`, with no validation of the
list. -/
def FilesService.MoveMany (c : Client) (fileIDs : List Int) (albumID : Option Int) :
    Except String HttpRequest :=
  .ok (c.buildRequest "PUT" "/api/files/move"
    (some (jsonSerialize (moveManyBody fileIDs albumID))))

/-- The construction phase of `TrashService.Restore` in `trash.go`: a POST to
`/api/trash/{id}/restore` with no body and no validation of the id. -/
def TrashService.Restore (c : Client) (fileID : Int) : Except String HttpRequest :=
  .ok (c.buildRequest "POST" ("/api/trash/" ++ toString fileID ++ "/restore") none)

/-- The construction phase of `TrashService.RestoreMany` in `trash.go`: a
POST of `{file_ids}` to `/api/trash/restore`, with no validation of the
list. -/
def TrashService.RestoreMany (c : Client) (fileIDs : List Int) :
    Except String HttpRequest :=
  .ok (c.buildRequest "POST" "/api/trash/restore"
    (some (jsonSerialize (.obj [("file_ids", .arr (fileIDs.map intJson))]))))

/-- The construction phase of `TrashService.PermanentDelete` in `trash.go`: a
DELETE to `/api/trash/{id}` with no body and no validation of the id. -/
def TrashService.PermanentDelete (c : Client) (fileID : Int) :
    Except String HttpRequest :=
  .ok (c.buildRequest "DELETE" ("/api/trash/" ++ toString fileID) none)

/-- Whether a construction phase produced a request (no local error). -/
def builtOk {α : Type} (r : Except String α) : Bool :=
  match r with
  | .ok _ => true
  | .error _ => false

/-- The message-selection rule of claim C5, written from the spec's words
(§4.1): "use `error` if non-empty, else `message`, else a standard textual
description of the status code, else (if parsing fails entirely) the raw
body text verbatim", where "parse the body as a JSON object with optional
`error` and `message` string fields" is the unmarshal attempt of the
source, which succeeds on a JSON object with string (or null) fields and —
per Go unmarshal semantics — on a top-level JSON null. -/
def specMessageRule (statusCode : Int) (body : String) : String :=
  match unmarshalErrResp body with
  | some em => if em.1 ≠ "" then em.1 else if em.2 ≠ "" then em.2 else statusText statusCode
  | none => body

/-! ## Theorems -/

/-- Both branches of `parseAPIError` carry the received status code through
unchanged. -/
theorem parseAPIError_StatusCode (s : Int) (b : String) :
    (parseAPIError s b).StatusCode = s := by
  unfold parseAPIError
  cases unmarshalErrResp b <;> rfl

/-- C1: the claim reads `Share.Create` as rejecting "neither set, or both
set"; the source checks only `opts == nil || (FileID == nil && AlbumID ==
nil)`, so with both targets set no local error occurs and the request is
built.  Concretely, with `FileID = 1` and `AlbumID = 2` construction
succeeds. -/
theorem shareCreate_both_targets_builds :
    builtOk (ShareService.Create (NewClient "t")
      (some { FileID := some 1, AlbumID := some 2, Password := "", ExpiresIn := 0, MaxViews := 0 })) = true := by
  rfl

/-- C1 (amended): `Share.Create` returns a local construction error — before
any request is built, hence before any network call — exactly when the
options are nil or neither a file id nor an album id is set; in every other
case, including both targets set, the request is built and sent. -/
theorem shareCreate_local_error_iff (c : Client) (opts : Option CreateShareOptions) :
    builtOk (ShareService.Create c opts) = false ↔
      (opts = none ∨ ∃ o, opts = some o ∧ o.FileID = none ∧ o.AlbumID = none) := by
  cases opts with
  | none => simp [ShareService.Create, builtOk]
  | some o =>
    cases hf : o.FileID <;> cases ha : o.AlbumID <;>
      simp [ShareService.Create, builtOk, hf, ha]

/-- C3: contrary to the claim, a zero identifier or an empty identifier list
is not rejected locally: `Files.Delete 0`, `Files.BatchDelete []` and
`Trash.RestoreMany []` all build their network request. -/
theorem id_methods_zero_id_builds :
    builtOk (FilesService.Delete (NewClient "t") 0) = true ∧
    builtOk (FilesService.BatchDelete (NewClient "t") []) = true ∧
    builtOk (TrashService.RestoreMany (NewClient "t") []) = true ∧
    builtOk (TrashService.PermanentDelete (NewClient "t") 0) = true := by
  exact ⟨rfl, rfl, rfl, rfl⟩

/-- C3 (amended): `Files.Delete`, `Files.BatchDelete`, `Files.Move`,
`Files.MoveMany`, `Trash.Restore`, `Trash.RestoreMany` and
`Trash.PermanentDelete` perform no local validation of their identifiers:
for every identifier — zero included — and every identifier list — empty
included — the construction phase succeeds and the network request is
built. -/
theorem id_methods_never_local_error (c : Client) (fileID : Int)
    (fileIDs : List Int) (albumID : Option Int) :
    builtOk (FilesService.Delete c fileID) = true ∧
    builtOk (FilesService.BatchDelete c fileIDs) = true ∧
    builtOk (FilesService.Move c fileID albumID) = true ∧
    builtOk (FilesService.MoveMany c fileIDs albumID) = true ∧
    builtOk (TrashService.Restore c fileID) = true ∧
    builtOk (TrashService.RestoreMany c fileIDs) = true ∧
    builtOk (TrashService.PermanentDelete c fileID) = true := by
  exact ⟨rfl, rfl, rfl, rfl, rfl, rfl, rfl⟩

/-- C2: `UploadOptions.AlbumID` is declared and documented in `files.go` as
"the optional album to add the file to", and the spec lists the target
album id among `Files.Upload`'s recognized options, but
`FilesService.Upload` never reads it: the outgoing multipart request is
identical with `AlbumID` set and with it nil, and at the concrete failing
input the request carries no album field at all. -/
theorem filesUpload_ignores_AlbumID :
    (∀ (c : Client) (boundary : String) (reader : List Nat) (fn d : String) (a : Int),
      FilesService.Upload c boundary reader
          (some { Filename := fn, Description := d, AlbumID := some a }) =
        FilesService.Upload c boundary reader
          (some { Filename := fn, Description := d, AlbumID := none })) ∧
    (FilesService.Upload (NewClient "t") "B" [1, 2, 3]
        (some { Filename := "a.jpg", Description := "d", AlbumID := some 7 })).parts =
      [FormPart.filePart "file" "a.jpg" [1, 2, 3], FormPart.textPart "description" "d"] := by
  exact ⟨fun _ _ _ _ _ _ => rfl, rfl⟩

/-- C4: for every response with a status code outside [200,300) and any body,
both transports return a classified `APIError` whose `StatusCode` equals
the received code exactly, and each status predicate holds precisely per
the mapping: 401 unauthorized, 403 forbidden, 404 not found, 400 bad
request, 402 or 413 quota exceeded. -/
theorem transport_error_classification (resp : HttpResponse) (wantResult : Bool)
    (h : resp.statusCode < 200 ∨ 300 ≤ resp.statusCode) :
    handleResponse resp wantResult =
        Except.error (SDKError.api (parseAPIError resp.statusCode resp.body)) ∧
    handleUploadResponse resp =
        Except.error (SDKError.api (parseAPIError resp.statusCode resp.body)) ∧
    (parseAPIError resp.statusCode resp.body).StatusCode = resp.statusCode ∧
    (IsUnauthorized (SDKError.api (parseAPIError resp.statusCode resp.body)) = true ↔
        resp.statusCode = 401) ∧
    (IsForbidden (SDKError.api (parseAPIError resp.statusCode resp.body)) = true ↔
        resp.statusCode = 403) ∧
    (IsNotFound (SDKError.api (parseAPIError resp.statusCode resp.body)) = true ↔
        resp.statusCode = 404) ∧
    (IsBadRequest (SDKError.api (parseAPIError resp.statusCode resp.body)) = true ↔
        resp.statusCode = 400) ∧
    (IsQuotaExceeded (SDKError.api (parseAPIError resp.statusCode resp.body)) = true ↔
        (resp.statusCode = 402 ∨ resp.statusCode = 413)) := by
  refine ⟨?_, ?_, parseAPIError_StatusCode _ _, ?_, ?_, ?_, ?_, ?_⟩ <;>
    simp [handleResponse, handleUploadResponse, h, IsUnauthorized, IsForbidden,
      IsNotFound, IsBadRequest, IsQuotaExceeded, parseAPIError_StatusCode]

/-- Witness for C4: a 404 response with body `"x"` satisfies the hypothesis
and every clause of the classification. -/
theorem transport_error_classification_witness :
    (((404 : Int) < 200 ∨ (300 : Int) ≤ (404 : Int)) ∧
      (handleResponse (HttpResponse.mk 404 "x") true =
          Except.error (SDKError.api (parseAPIError 404 "x")) ∧
        handleUploadResponse (HttpResponse.mk 404 "x") =
          Except.error (SDKError.api (parseAPIError 404 "x")) ∧
        (parseAPIError 404 "x").StatusCode = 404 ∧
        (IsUnauthorized (SDKError.api (parseAPIError 404 "x")) = true ↔ (404 : Int) = 401) ∧
        (IsForbidden (SDKError.api (parseAPIError 404 "x")) = true ↔ (404 : Int) = 403) ∧
        (IsNotFound (SDKError.api (parseAPIError 404 "x")) = true ↔ (404 : Int) = 404) ∧
        (IsBadRequest (SDKError.api (parseAPIError 404 "x")) = true ↔ (404 : Int) = 400) ∧
        (IsQuotaExceeded (SDKError.api (parseAPIError 404 "x")) = true ↔
          ((404 : Int) = 402 ∨ (404 : Int) = 413)))) :=
  ⟨by decide, transport_error_classification (HttpResponse.mk 404 "x") true (by decide)⟩

/-- C5: the classifier's message follows the spec's selection rule — the
`error` field of a body that unmarshals as the JSON error object when that
field is non-empty, else its `message` field, else the standard textual
description of the status code; the raw body text verbatim when the
unmarshal attempt fails entirely.  `specMessageRule` is written from the
spec's words; `parseAPIError` from the source.  Both are plain functions of
exactly the status code and body, so the claimed purity holds by
construction. -/
theorem parseAPIError_matches_spec_rule (s : Int) (b : String) :
    parseAPIError s b = { StatusCode := s, Message := specMessageRule s b } := by
  unfold parseAPIError specMessageRule
  cases h : unmarshalErrResp b <;> simp

/-- C6: every JSON-path request carries the bearer credential, the user-agent
identification and the accept-JSON header, and the JSON content type
exactly when a body is present; a multipart upload instead carries exactly
the four listed headers, its content type being the boundary-carrying
multipart one and not the JSON one. -/
theorem request_headers_spec (c : Client) (method path : String) (body : Option String)
    (path2 boundary : String) (reader : List Nat) (filename : String)
    (fields : List (String × String)) :
    getHeader (c.buildRequest method path body).headers "Authorization" =
        some ("Bearer " ++ c.apiToken) ∧
    getHeader (c.buildRequest method path body).headers "User-Agent" = some c.userAgent ∧
    getHeader (c.buildRequest method path body).headers "Accept" = some "application/json" ∧
    (getHeader (c.buildRequest method path body).headers "Content-Type" =
        some "application/json" ↔ body ≠ none) ∧
    (c.uploadMultipart path2 boundary reader filename fields).headers =
      [("Authorization", "Bearer " ++ c.apiToken), ("User-Agent", c.userAgent),
       ("Content-Type", "multipart/form-data; boundary=" ++ boundary),
       ("Accept", "application/json")] ∧
    getHeader (c.uploadMultipart path2 boundary reader filename fields).headers
        "Content-Type" = some ("multipart/form-data; boundary=" ++ boundary) ∧
    getHeader (c.uploadMultipart path2 boundary reader filename fields).headers
        "Content-Type" ≠ some "application/json" := by
  refine ⟨?_, ?_, ?_, ?_, rfl, ?_, ?_⟩
  · cases body <;> simp [Client.buildRequest, getHeader]
  · cases body <;> simp [Client.buildRequest, getHeader]
  · cases body <;> simp [Client.buildRequest, getHeader]
  · cases body <;> simp [Client.buildRequest, getHeader]
  · simp [Client.uploadMultipart, getHeader]
  · simp [Client.uploadMultipart, getHeader]
    intro hcontra
    have hlen := congrArg String.length hcontra
    rw [String.length_append] at hlen
    have h30 : ("multipart/form-data; boundary=" : String).length = 30 := rfl
    have h16 : ("application/json" : String).length = 16 := rfl
    omega

/-- C7: on a 2xx response with a non-nil destination, an empty body is
success with nothing decoded (the destination keeps its zero value), a
parseable non-empty body decodes into the destination, and an unparseable
non-empty body is the local decode error — never ignored and never a
classified API error. -/
theorem success_decode_spec (resp : HttpResponse)
    (h1 : 200 ≤ resp.statusCode) (h2 : resp.statusCode < 300) :
    (resp.body = "" → handleResponse resp true = Except.ok none) ∧
    (∀ j, jsonParse resp.body = some j → handleResponse resp true = Except.ok (some j)) ∧
    (resp.body ≠ "" → jsonParse resp.body = none →
      handleResponse resp true = Except.error (SDKError.localErr "failed to decode response")) ∧
    (∀ e, handleResponse resp true ≠ Except.error (SDKError.api e)) := by
  have hcond : ¬(resp.statusCode < 200 ∨ 300 ≤ resp.statusCode) := by omega
  refine ⟨fun hb => ?_, fun j hj => ?_, fun hb hj => ?_, fun e => ?_⟩
  · simp [handleResponse, hcond, hb]
  · have hb : resp.body ≠ "" := by
      intro hb
      rw [hb] at hj
      exact Option.noConfusion ((rfl : jsonParse "" = none) ▸ hj)
    simp [handleResponse, hcond, hb, hj]
  · simp [handleResponse, hcond, hb, hj]
  · by_cases hb : resp.body = ""
    · simp [handleResponse, hcond, hb]
    · cases hj : jsonParse resp.body <;> simp [handleResponse, hcond, hb, hj]

/-- Witness for C7: a 200 response with an empty body decodes to nothing. -/
theorem success_decode_spec_witness :
    ((200 : Int) ≤ 200 ∧ (200 : Int) < 300) ∧
    handleResponse (HttpResponse.mk 200 "") true = Except.ok none :=
  ⟨⟨by decide, by decide⟩,
    (success_decode_spec (HttpResponse.mk 200 "") (by decide) (by decide)).1 rfl⟩

/-- Text parts contain no file part. -/
theorem countP_isFile_map_textPart (fields : List (String × String)) :
    (fields.map (fun kv => FormPart.textPart kv.1 kv.2)).countP (fun p => p.isFile) = 0 := by
  induction fields with
  | nil => rfl
  | cons kv t ih => simp [List.countP_cons, FormPart.isFile, ih]

/-- Filtering the non-file parts keeps every text part. -/
theorem filter_not_isFile_map_textPart (fields : List (String × String)) :
    (fields.map (fun kv => FormPart.textPart kv.1 kv.2)).filter (fun p => !p.isFile) =
      fields.map (fun kv => FormPart.textPart kv.1 kv.2) := by
  rw [List.filter_eq_self]
  intro p hp
  simp only [List.mem_map] at hp
  obtain ⟨kv, _, rfl⟩ := hp
  rfl

/-- C8: the multipart body is exactly one file part — field name `"file"`,
the supplied filename, content the bytes of the input in order — followed
by one text part per entry of the field map, every given field written,
empty-valued entries included. -/
theorem uploadMultipart_parts_spec (c : Client) (path boundary : String)
    (reader : List Nat) (filename : String) (fields : List (String × String)) :
    (c.uploadMultipart path boundary reader filename fields).parts =
      FormPart.filePart "file" filename reader
        :: fields.map (fun kv => FormPart.textPart kv.1 kv.2) ∧
    (c.uploadMultipart path boundary reader filename fields).parts.countP
        (fun p => p.isFile) = 1 ∧
    (c.uploadMultipart path boundary reader filename fields).parts.filter
        (fun p => !p.isFile) =
      fields.map (fun kv => FormPart.textPart kv.1 kv.2) := by
  refine ⟨rfl, ?_, ?_⟩
  · show (FormPart.filePart "file" filename reader
        :: fields.map (fun kv => FormPart.textPart kv.1 kv.2)).countP (fun p => p.isFile) = 1
    simp [List.countP_cons, FormPart.isFile, countP_isFile_map_textPart]
  · show (FormPart.filePart "file" filename reader
        :: fields.map (fun kv => FormPart.textPart kv.1 kv.2)).filter (fun p => !p.isFile) =
      fields.map (fun kv => FormPart.textPart kv.1 kv.2)
    simp [List.filter_cons, FormPart.isFile, filter_not_isFile_map_textPart]
    intro a x y _ heq
    subst heq
    rfl

/-- C9: the query variant is a plain GET `Client.request`: with a non-empty
query map the path is extended with `?` and the encoded query string, with
an empty map the path is unmodified; request and outcome coincide with the
plain call in both cases. -/
theorem requestWithQuery_is_get (c : Client) (path : String)
    (query : List (String × List String)) (resp : HttpResponse) (wantResult : Bool) :
    c.requestWithQuery path query resp wantResult =
      c.request "GET"
        (if query = [] then path else path ++ "?" ++ encodeValues query)
        none resp wantResult := by
  cases query <;> simp [Client.requestWithQuery]

/-- C10: with nil options or an empty `Filename` option the file part is
named with the default filename `"image.jpg"`, and with nil options the
body consists of the file part alone — no extra text fields. -/
theorem upload_default_filename (c : Client) (boundary : String) (reader : List Nat)
    (opts : Option UploadOptions) :
    ((opts = none ∨ ∃ o, opts = some o ∧ o.Filename = "") →
      (FilesService.Upload c boundary reader opts).parts.head? =
        some (FormPart.filePart "file" "image.jpg" reader)) ∧
    (opts = none →
      (FilesService.Upload c boundary reader opts).parts =
        [FormPart.filePart "file" "image.jpg" reader]) := by
  constructor
  · rintro (rfl | ⟨o, rfl, hf⟩)
    · rfl
    · simp [FilesService.Upload, Client.uploadMultipart, hf]
  · rintro rfl
    rfl

/-- Witness for C10: the nil-options upload at a concrete client and stream. -/
theorem upload_default_filename_witness :
    ((none : Option UploadOptions) = none ∨
      ∃ o, (none : Option UploadOptions) = some o ∧ o.Filename = "") ∧
    (FilesService.Upload (NewClient "t") "B" [9] none).parts.head? =
      some (FormPart.filePart "file" "image.jpg" [9]) ∧
    (FilesService.Upload (NewClient "t") "B" [9] none).parts =
      [FormPart.filePart "file" "image.jpg" [9]] :=
  ⟨Or.inl rfl,
    (upload_default_filename (NewClient "t") "B" [9] none).1 (Or.inl rfl),
    (upload_default_filename (NewClient "t") "B" [9] none).2 rfl⟩
